import Mathlib

set_option linter.unusedVariables false

/-
  Verification development for the mongo-go read API
  (src/cmd/main.go, src/config/config.go).

  The service is embedded shallowly:
  * BSON documents (Go `bson.M`) become association lists of field name to
    `BVal`; decoding into a Go map deduplicates keys, so well-formed
    documents have nodup keys (`docWF`).
  * The MongoDB driver boundary is a `Db` value: an ordered list of named
    collections (order = `ListCollectionNames` order = cursor order),
    plus error-injection channels for the operations whose failures the
    driver can report: `listNamesErr` (ListCollectionNames), and per
    collection `findErr` (the `Find` call itself fails), `iterErr` (the
    cursor fails while being iterated: `Cursor.All` returns this error,
    while `Cursor.Next` merely returns `false` and only `Cursor.Err`
    reveals it), and `findOneErr` (`FindOne` fails with an error other
    than `ErrNoDocuments`).
  * Each Fiber handler becomes a function from the request data and the
    `Db` to a `Response` (status, body) paired with the trace of database
    operations it issued (`List DbOp`), so "performs no database query"
    and "mutates nothing" are statable.
  * Go's map iteration order (`for key := range result` in `listFields`)
    is unspecified and may differ between two executions; it is modelled
    by an explicit enumeration parameter `ord : MapOrder` passed to every
    handler, constrained (where needed) to enumerate a permutation of the
    document's keys.
  * JSON serialization models `encoding/json` as used by Fiber's
    `c.JSON`: object keys of Go maps are emitted in sorted order, array
    elements in slice order, `primitive.ObjectID` as its lowercase hex
    string, and a nil slice (which is what `var xs []bson.M` remains when
    `cursor.All` decodes zero documents) as `null`.
-/

namespace MongoGo

/-- A BSON value as it appears after decoding into Go's `bson.M`. -/
inductive BVal where
  | str (s : String)
  | int (n : Int)
  | bool (b : Bool)
  | null
  | oid (bytes : List Nat)
  | doc (fields : List (String × BVal))
  | arr (elems : List BVal)

/-- A decoded document (`bson.M`): field names with values. -/
abbrev Doc := List (String × BVal)

/-- The top-level field names of a document. -/
def docKeys (d : Doc) : List String := d.map Prod.fst

/-- Field access on a decoded document. -/
def getField (d : Doc) (k : String) : Option BVal :=
  match d.find? (fun p => p.1 == k) with
  | some p => some p.2
  | none => none

/-- ASCII hex digit test, as `encoding/hex` accepts (both cases). -/
def isHexDigit (c : Char) : Bool :=
  let n := c.toNat
  (48 ≤ n && n ≤ 57) || (97 ≤ n && n ≤ 102) || (65 ≤ n && n ≤ 70)

/-- Numeric value of a hex digit. -/
def hexVal (c : Char) : Nat :=
  let n := c.toNat
  if 48 ≤ n && n ≤ 57 then n - 48
  else if 97 ≤ n && n ≤ 102 then n - 87
  else n - 55

/-- Decode consecutive pairs of hex digits into bytes. -/
def hexPairsToBytes : List Char → List Nat
  | c1 :: c2 :: rest => (16 * hexVal c1 + hexVal c2) :: hexPairsToBytes rest
  | _ => []

/-- A string is a valid 24-hex-character ObjectID rendering.
    `primitive.ObjectIDFromHex` first checks the byte length is 24 and then
    hex-decodes; a string passes both checks exactly when it consists of 24
    ASCII hex characters (for such strings char count equals byte count,
    and any string containing a non-ASCII character fails one of the two
    checks). -/
def valid24Hex (s : String) : Bool :=
  s.data.length == 24 && s.data.all isHexDigit

/-- `primitive.ObjectIDFromHex`: the 12 decoded bytes, or `none`
    (`ErrInvalidHex`) when the string is not 24 hex characters. -/
def objectIDFromHex (s : String) : Option (List Nat) :=
  if valid24Hex s then some (hexPairsToBytes s.data) else none

/-- Lowercase hex digit for a value below 16. -/
def hexDigitChar (n : Nat) : Char :=
  if n < 10 then Char.ofNat (48 + n) else Char.ofNat (87 + n)

/-- Lowercase hex rendering of a byte list (`ObjectID.Hex`). -/
def hexOfBytes (l : List Nat) : String :=
  String.mk (l.foldr (fun b acc => hexDigitChar (b / 16 % 16) :: hexDigitChar (b % 16) :: acc) [])

/-- JSON escaping of one character (model of `encoding/json` for the
    characters that occur in this development). -/
def escChar (c : Char) : String :=
  if c = '"' then "\\\""
  else if c = '\\' then "\\\\"
  else if c = '\n' then "\\n"
  else if c = '\t' then "\\t"
  else if c = '\r' then "\\r"
  else String.mk [c]

/-- JSON string literal. -/
def jsonStr (s : String) : String :=
  "\"" ++ String.join (s.data.map escChar) ++ "\""

/-- Comma-separated concatenation. -/
def commaJoin : List String → String
  | [] => ""
  | [x] => x
  | x :: rest => x ++ "," ++ commaJoin rest

/-- Lexicographic comparison of character lists by codepoint; on UTF-8
    strings this coincides with Go's byte-wise `<` on strings, which is
    the order `encoding/json` sorts map keys in. -/
def charsLt : List Char → List Char → Bool
  | [], [] => false
  | [], _ :: _ => true
  | _ :: _, [] => false
  | c :: cs, d :: ds =>
    if c.toNat < d.toNat then true
    else if d.toNat < c.toNat then false
    else charsLt cs ds

/-- Go string comparison. -/
def strLt (a b : String) : Bool := charsLt a.data b.data

/-- Insert a keyed entry into a key-sorted list (used to model the sorted
    key order `encoding/json` gives the entries of a Go map). -/
def insertByKey {α : Type} (p : String × α) : List (String × α) → List (String × α)
  | [] => [p]
  | q :: rest => if strLt p.1 q.1 then p :: q :: rest else q :: insertByKey p rest

/-- Sort a keyed list by key (insertion sort). -/
def sortByKey {α : Type} (l : List (String × α)) : List (String × α) :=
  l.foldr insertByKey []

mutual
/-- JSON rendering of a BSON value, as `json.Marshal` renders the
    corresponding Go value: map keys sorted, ObjectID as quoted hex. -/
def jsonOfBVal : BVal → String
  | .str s => jsonStr s
  | .int n => toString n
  | .bool b => if b then "true" else "false"
  | .null => "null"
  | .oid bytes => jsonStr (hexOfBytes bytes)
  | .doc fields =>
      "\x7b" ++ commaJoin ((sortByKey (renderFields fields)).map
        (fun p => jsonStr p.1 ++ ":" ++ p.2)) ++ "\x7d"
  | .arr elems => "[" ++ commaJoin (renderElems elems) ++ "]"
termination_by structural v => v

/-- Render each field's value (keys are sorted afterwards). -/
def renderFields : List (String × BVal) → List (String × String)
  | [] => []
  | (k, v) :: rest => (k, jsonOfBVal v) :: renderFields rest
termination_by structural l => l

/-- Render each array element. -/
def renderElems : List BVal → List String
  | [] => []
  | v :: rest => jsonOfBVal v :: renderElems rest
termination_by structural l => l
end

/-- JSON rendering of one decoded document (`c.JSON` on a `bson.M`). -/
def jsonOfDoc (d : Doc) : String := jsonOfBVal (.doc d)

/-- `json.Marshal` of the Go slice `[]bson.M` filled by `cursor.All`:
    the slice keeps its initial `nil` value when zero documents are
    decoded, and a nil slice marshals as `null`; otherwise a JSON array. -/
def goDocSliceJson (l : List Doc) : String :=
  match l with
  | [] => "null"
  | _ => "[" ++ commaJoin (l.map jsonOfDoc) ++ "]"

/-- JSON array of strings. -/
def jsonStrArr (l : List String) : String :=
  "[" ++ commaJoin (l.map jsonStr) ++ "]"

/-- `json.Marshal` of the Go map `map[string][]string`: keys sorted. -/
def jsonFieldsMap (l : List (String × List String)) : String :=
  "\x7b" ++ commaJoin ((sortByKey l).map
    (fun p => jsonStr p.1 ++ ":" ++ jsonStrArr p.2)) ++ "\x7d"

/-- One collection as seen through the driver: its documents in cursor
    order, plus injectable failures of the driver operations issued
    against it.  `findErr`: the `Find` call returns an error.  `iterErr`:
    the cursor fails while iterating — `Cursor.All` returns this error,
    `Cursor.Next` returns `false` (yielding no document) and only
    `Cursor.Err` reveals it.  `findOneErr`: `FindOne...Decode` returns an
    error other than `mongo.ErrNoDocuments`. -/
structure CollState where
  docs : List Doc
  findErr : Option String := none
  iterErr : Option String := none
  findOneErr : Option String := none

/-- The database `firstDB` as seen through the driver: collections in
    `ListCollectionNames` order, plus an injectable failure of
    `ListCollectionNames` itself. -/
structure Db where
  colls : List (String × CollState)
  listNamesErr : Option String := none

/-- Resolve a collection handle by name; a name that does not occur
    behaves as an empty collection (MongoDB semantics for querying a
    collection that does not exist). -/
def Db.getColl (db : Db) (name : String) : CollState :=
  match db.colls.find? (fun p => p.1 == name) with
  | some p => p.2
  | none => { docs := [] }

/-- No failure is injected into any driver operation on this collection. -/
def CollState.errorFree (cs : CollState) : Bool :=
  cs.findErr.isNone && cs.iterErr.isNone && cs.findOneErr.isNone

/-- No failure is injected into any driver operation on this database. -/
def Db.errorFree (db : Db) : Bool :=
  db.listNamesErr.isNone && db.colls.all (fun p => p.2.errorFree)

/-- A stored document is well-formed: it carries the `_id` field every
    MongoDB document has, and (being decoded from a Go map) nodup keys. -/
def docWF (d : Doc) : Bool :=
  (getField d "_id").isSome && decide (docKeys d).Nodup

/-- Database well-formedness: collection names are unique and every
    stored document is well-formed. -/
def Db.wf (db : Db) : Bool :=
  decide (db.colls.map Prod.fst).Nodup && db.colls.all (fun p => p.2.docs.all docWF)

/-- A database operation issued by a handler.  The read operations are the
    ones this service uses; the write operations exist so that "leaves the
    database unchanged" is a statement about an interpreter that could
    change it. -/
inductive DbOp where
  | listCollectionNames
  | find (coll : String)
  | findOne (coll : String) (id : List Nat)
  | insertOne (coll : String) (d : Doc)
  | deleteOne (coll : String) (id : List Nat)

/-- Whether an operation only reads. -/
def DbOp.isRead : DbOp → Bool
  | .insertOne _ _ => false
  | .deleteOne _ _ => false
  | _ => true

/-- The document whose `_id` field is the given ObjectID. -/
def matchesId (oid : List Nat) (d : Doc) : Bool :=
  match getField d "_id" with
  | some (.oid b) => b == oid
  | _ => false

/-- Effect of one operation on the database: reads leave it unchanged,
    writes modify the targeted collection. -/
def applyOp (db : Db) : DbOp → Db
  | .insertOne c d =>
      let f := fun (p : String × CollState) =>
        if p.1 == c then (p.1, { p.2 with docs := p.2.docs ++ [d] }) else p
      { db with colls := db.colls.map f }
  | .deleteOne c i =>
      let f := fun (p : String × CollState) =>
        if p.1 == c then (p.1, { p.2 with docs := p.2.docs.filter (fun d => !matchesId i d) }) else p
      { db with colls := db.colls.map f }
  | _ => db

/-- Database state after a trace of operations. -/
def stateAfter (db : Db) (ops : List DbOp) : Db := ops.foldl applyOp db

/-- The per-execution enumeration order Go gives `for key := range m` on a
    decoded document; unspecified, so passed to every handler as a
    parameter (two executions may receive different orders). -/
def MapOrder : Type := Doc → List String

/-- HTTP response as produced by the Fiber handlers. -/
structure Response where
  status : Nat
  body : String
deriving DecidableEq

/-- The `fields` map accumulated by `listFields`'s loop over the
    collection names, or the first error: per collection, `Find`, then one
    `cursor.Next`; when a document is decoded, its keys (in map-iteration
    order `ord`) are appended under the collection's name — an entry is
    created only when at least one key is appended.  A failed `Find`
    aborts the whole loop.  A cursor whose iteration fails makes `Next`
    return `false`, and since the code never consults `cursor.Err`, the
    collection is treated exactly like an empty one. -/
def scanFields (ord : MapOrder) : List (String × CollState) → Except String (List (String × List String))
  | [] => .ok []
  | (name, cs) :: rest =>
    match cs.findErr with
    | some e => .error e
    | none =>
      match cs.iterErr with
      | some _ => scanFields ord rest
      | none =>
        match cs.docs with
        | [] => scanFields ord rest
        | d :: _ =>
          match scanFields ord rest with
          | .error e => .error e
          | .ok fields =>
            .ok (if (ord d).isEmpty then fields else (name, ord d) :: fields)

/-- The `Find` operations the loop issues before it stops: one per
    collection name, cut short at a collection whose `Find` fails. -/
def scanOps : List (String × CollState) → List DbOp
  | [] => []
  | (name, cs) :: rest =>
    match cs.findErr with
    | some _ => [.find name]
    | none => .find name :: scanOps rest

/-- Handler `listFields` (GET /api/fields). -/
def listFields (ord : MapOrder) (db : Db) : Response × List DbOp :=
  match db.listNamesErr with
  | some e => ({ status := 500, body := e }, [.listCollectionNames])
  | none =>
    match scanFields ord db.colls with
    | .error e => ({ status := 500, body := e }, .listCollectionNames :: scanOps db.colls)
    | .ok fields =>
        ({ status := 200, body := jsonFieldsMap fields }, .listCollectionNames :: scanOps db.colls)

/-- The `fields` map `listFields` answers with (empty on the error path,
    which answers 500 instead). -/
def listFieldsMap (ord : MapOrder) (db : Db) : List (String × List String) :=
  match scanFields ord db.colls with
  | .ok fields => fields
  | .error _ => []

/-- Handler `getAllCustomers` (GET /api/customers): unfiltered `Find` on
    the `customers` collection, `cursor.All` into a nil `[]bson.M`,
    `c.JSON` of the slice. -/
def getAllCustomers (ord : MapOrder) (db : Db) : Response × List DbOp :=
  let cs := db.getColl "customers"
  match cs.findErr with
  | some e => ({ status := 500, body := e }, [.find "customers"])
  | none =>
    match cs.iterErr with
    | some e => ({ status := 500, body := e }, [.find "customers"])
    | none => ({ status := 200, body := goDocSliceJson cs.docs }, [.find "customers"])

/-- Handler `getAllProducts` (GET /api/products). -/
def getAllProducts (ord : MapOrder) (db : Db) : Response × List DbOp :=
  let cs := db.getColl "products"
  match cs.findErr with
  | some e => ({ status := 500, body := e }, [.find "products"])
  | none =>
    match cs.iterErr with
    | some e => ({ status := 500, body := e }, [.find "products"])
    | none => ({ status := 200, body := goDocSliceJson cs.docs }, [.find "products"])

/-- Handler `getAllOrders` (GET /api/orders). -/
def getAllOrders (ord : MapOrder) (db : Db) : Response × List DbOp :=
  let cs := db.getColl "orders"
  match cs.findErr with
  | some e => ({ status := 500, body := e }, [.find "orders"])
  | none =>
    match cs.iterErr with
    | some e => ({ status := 500, body := e }, [.find "orders"])
    | none => ({ status := 200, body := goDocSliceJson cs.docs }, [.find "orders"])

/-- Handler `getCustomerByID` (GET /api/customers/:id): parse the path
    parameter with `ObjectIDFromHex` (failure answers 400 before any
    database call), then `FindOne` with filter on `_id`:
    `ErrNoDocuments` answers 404, any other error 500 with the error text
    appended to the entity prefix, success 200 with the document. -/
def getCustomerByID (ord : MapOrder) (db : Db) (id : String) : Response × List DbOp :=
  match objectIDFromHex id with
  | none => ({ status := 400, body := "Invalid ID format" }, [])
  | some oid =>
    let cs := db.getColl "customers"
    match cs.findOneErr with
    | some e =>
        ({ status := 500, body := "Error finding customer: " ++ e }, [.findOne "customers" oid])
    | none =>
      match cs.docs.find? (matchesId oid) with
      | none => ({ status := 404, body := "Customer not found" }, [.findOne "customers" oid])
      | some d => ({ status := 200, body := jsonOfDoc d }, [.findOne "customers" oid])

/-- Handler `getProductByID` (GET /api/products/:id). -/
def getProductByID (ord : MapOrder) (db : Db) (id : String) : Response × List DbOp :=
  match objectIDFromHex id with
  | none => ({ status := 400, body := "Invalid ID format" }, [])
  | some oid =>
    let cs := db.getColl "products"
    match cs.findOneErr with
    | some e =>
        ({ status := 500, body := "Error finding product: " ++ e }, [.findOne "products" oid])
    | none =>
      match cs.docs.find? (matchesId oid) with
      | none => ({ status := 404, body := "Product not found" }, [.findOne "products" oid])
      | some d => ({ status := 200, body := jsonOfDoc d }, [.findOne "products" oid])

/-- Handler `getOrderByID` (GET /api/orders/:id). -/
def getOrderByID (ord : MapOrder) (db : Db) (id : String) : Response × List DbOp :=
  match objectIDFromHex id with
  | none => ({ status := 400, body := "Invalid ID format" }, [])
  | some oid =>
    let cs := db.getColl "orders"
    match cs.findOneErr with
    | some e =>
        ({ status := 500, body := "Error finding order: " ++ e }, [.findOne "orders" oid])
    | none =>
      match cs.docs.find? (matchesId oid) with
      | none => ({ status := 404, body := "Order not found" }, [.findOne "orders" oid])
      | some d => ({ status := 200, body := jsonOfDoc d }, [.findOne "orders" oid])

/-- The common shape of the three Get-by-ID handlers, parameterized by the
    collection queried and the entity name used in the 404 and 500
    messages. -/
def getByIDFrom (collName entity notFoundMsg : String)
    (ord : MapOrder) (db : Db) (id : String) : Response × List DbOp :=
  match objectIDFromHex id with
  | none => ({ status := 400, body := "Invalid ID format" }, [])
  | some oid =>
    let cs := db.getColl collName
    match cs.findOneErr with
    | some e =>
        ({ status := 500, body := "Error finding " ++ entity ++ ": " ++ e }, [.findOne collName oid])
    | none =>
      match cs.docs.find? (matchesId oid) with
      | none => ({ status := 404, body := notFoundMsg }, [.findOne collName oid])
      | some d => ({ status := 200, body := jsonOfDoc d }, [.findOne collName oid])

/-- Lookup in the accumulated `fields` map. -/
def lookupKey (name : String) : List (String × List String) → Option (List String)
  | [] => none
  | (k, v) :: rest => if k = name then some v else lookupKey name rest

/-- Startup environment of the process: whether the zap logger can be
    built, whether `godotenv.Load` finds the `.env` file, the value of
    `MONGODB_URL` after loading, and whether connect, ping and port bind
    succeed. -/
structure StartEnv where
  zapOk : Bool := true
  envFileOk : Bool := true
  mongoUrl : String := ""
  connectOk : Bool := true
  pingOk : Bool := true
  bindOk : Bool := true

/-- Outcome of `main`'s startup sequence: a fatal termination (with exit
    code, before any handler ever runs) or reaching `app.Listen`
    successfully. -/
inductive StartResult where
  | fatal (exitCode : Nat) (msg : String)
  | serving

/-- The HTTP port is bound only when startup reached `app.Listen` and the
    bind succeeded. -/
def StartResult.portBound : StartResult → Bool
  | .serving => true
  | .fatal _ _ => false

/-- Process exit status of the startup outcome (`log.Fatalf`,
    `zap.Logger.Fatal` and `os.Exit(1)` all exit with status 1). -/
def StartResult.exitCode : StartResult → Nat
  | .fatal c _ => c
  | .serving => 0

/-- Startup sequence of `main` and `config.LoadEnv`: zap logger, then
    `godotenv.Load` (fatal via `log.Fatalf` when the file is unreadable),
    then the empty check of `config.GetMongoDB_URL`, then connect, ping,
    and finally `app.Listen`.  Handlers are registered, and the port
    bound, only after every earlier step succeeded. -/
def startup (e : StartEnv) : StartResult :=
  if !e.zapOk then .fatal 1 "Failed to set up zap logger"
  else if !e.envFileOk then .fatal 1 "Error loading .env file"
  else if e.mongoUrl = "" then .fatal 1 "Environment variable for MongoDB URL is not set."
  else if !e.connectOk then .fatal 1 "Failed to connect to MongoDB."
  else if !e.pingOk then .fatal 1 "Failed to ping MongoDB."
  else if !e.bindOk then .fatal 1 "Failed to start server."
  else .serving

/-- The `fields` map `listFields` builds on an error-free database: one
    entry per collection whose cursor yields a document with at least one
    key. -/
def fieldsList (ord : MapOrder) : List (String × CollState) → List (String × List String)
  | [] => []
  | (name, cs) :: rest =>
    match cs.docs with
    | [] => fieldsList ord rest
    | d :: _ =>
      if (ord d).isEmpty then fieldsList ord rest else (name, ord d) :: fieldsList ord rest

/- Concrete fixtures used by witnesses and counterexamples. -/

/-- The map-iteration order that happens to enumerate keys in document
    order (one of the orders Go may produce). -/
def ord0 : MapOrder := fun d => d.map Prod.fst

/-- The map-iteration order that happens to enumerate keys in reverse
    document order (another order Go may produce). -/
def ordRev : MapOrder := fun d => (d.map Prod.fst).reverse

/-- The ObjectID 507f1f77bcf86cd799439011 as bytes. -/
def oid24 : List Nat := [80, 127, 31, 119, 188, 248, 108, 215, 153, 67, 144, 17]

/-- A customer document. -/
def dAlice : Doc := [("_id", .oid oid24), ("name", .str "Alice")]

/-- A database with no collections. -/
def db0 : Db := { colls := [] }

/-- A database with one customer and an existing but empty orders
    collection. -/
def dbW : Db := { colls := [("customers", { docs := [dAlice] }), ("orders", { docs := [] })] }

/-- A database where every `FindOne` fails with a non-not-found error. -/
def dbErrs : Db :=
  { colls := [("customers", { docs := [], findOneErr := some "socket timeout" }),
              ("products", { docs := [], findOneErr := some "socket timeout" }),
              ("orders", { docs := [], findOneErr := some "socket timeout" })] }

/-- A database whose `orders` collection holds a document but whose cursor
    fails while being iterated: `Cursor.All` reports the error,
    `Cursor.Next` just returns `false`. -/
def dbC7 : Db :=
  { colls := [("orders", { docs := [dAlice], iterErr := some "connection reset by peer" })] }

/-- A startup environment whose configuration file is unreadable. -/
def env0 : StartEnv := { envFileOk := false, mongoUrl := "mongodb://h" }

/- Helper lemmas. -/

/-- An error-free collection state has no injected failure. -/
theorem collState_errorFree_spec (cs : CollState) (h : cs.errorFree = true) :
    cs.findErr = none ∧ cs.iterErr = none ∧ cs.findOneErr = none := by
  unfold CollState.errorFree at h
  simp only [Bool.and_eq_true, Option.isNone_iff_eq_none] at h
  exact ⟨h.1.1, h.1.2, h.2⟩

/-- An error-free database has no failure on `ListCollectionNames` and no
    failure on any listed collection. -/
theorem db_errorFree_spec (db : Db) (h : db.errorFree = true) :
    db.listNamesErr = none ∧
    ∀ p ∈ db.colls, p.2.findErr = none ∧ p.2.iterErr = none ∧ p.2.findOneErr = none := by
  unfold Db.errorFree at h
  simp only [Bool.and_eq_true, Option.isNone_iff_eq_none, List.all_eq_true] at h
  exact ⟨h.1, fun p hp => collState_errorFree_spec p.2 (h.2 p hp)⟩

/-- Resolving any collection handle of an error-free database yields an
    error-free collection state. -/
theorem getColl_errorFree (db : Db) (h : db.errorFree = true) (name : String) :
    (db.getColl name).findErr = none ∧ (db.getColl name).iterErr = none ∧
    (db.getColl name).findOneErr = none := by
  unfold Db.getColl
  cases hf : db.colls.find? (fun p => p.1 == name) with
  | none => exact ⟨rfl, rfl, rfl⟩
  | some p => exact (db_errorFree_spec db h).2 p (List.mem_of_find?_eq_some hf)

/-- A well-formed database has nodup collection names and well-formed
    stored documents. -/
theorem db_wf_spec (db : Db) (h : db.wf = true) :
    (db.colls.map Prod.fst).Nodup ∧ ∀ p ∈ db.colls, ∀ d ∈ p.2.docs, docWF d = true := by
  unfold Db.wf at h
  simp only [Bool.and_eq_true, List.all_eq_true, decide_eq_true_eq] at h
  exact ⟨h.1, fun p hp d hd => h.2 p hp d hd⟩

/-- A field that `getField` finds is among the document's keys. -/
theorem mem_keys_of_getField (d : Doc) (k : String) (h : (getField d k).isSome = true) :
    k ∈ docKeys d := by
  unfold getField at h
  cases hf : d.find? (fun p => p.1 == k) with
  | none => rw [hf] at h; simp at h
  | some p =>
    have hm := List.mem_of_find?_eq_some hf
    have hp : p.1 = k := by simpa using List.find?_some hf
    exact hp ▸ List.mem_map_of_mem Prod.fst hm

/-- `listFields`'s loop on an error-free collection list accumulates
    exactly `fieldsList`. -/
theorem scanFields_eq_ok (ord : MapOrder) :
    ∀ l : List (String × CollState),
      (∀ p ∈ l, p.2.findErr = none ∧ p.2.iterErr = none) →
      scanFields ord l = Except.ok (fieldsList ord l) := by
  intro l
  induction l with
  | nil => intro _; rfl
  | cons p rest ih =>
    intro h
    obtain ⟨name, cs⟩ := p
    obtain ⟨hf, hi⟩ := h ⟨name, cs⟩ (List.mem_cons_self _ _)
    have hf' : cs.findErr = none := hf
    have hi' : cs.iterErr = none := hi
    have hrest := fun q hq => h q (List.mem_cons_of_mem _ hq)
    simp only [scanFields, fieldsList, hf', hi']
    cases hd : cs.docs with
    | nil => exact ih hrest
    | cons d ds => rw [ih hrest]

/-- Keys absent from the scanned collections are absent from the map. -/
theorem lookupKey_fieldsList_of_notMem (ord : MapOrder) (name : String) :
    ∀ l : List (String × CollState), name ∉ l.map Prod.fst →
      lookupKey name (fieldsList ord l) = none := by
  intro l
  induction l with
  | nil => intro _; rfl
  | cons p rest ih =>
    intro h
    obtain ⟨n, cs⟩ := p
    have hne : n ≠ name := by
      intro he; exact h (he ▸ List.mem_map_of_mem Prod.fst (List.mem_cons_self _ _))
    have hrest : name ∉ rest.map Prod.fst := by
      intro hr; exact h (List.mem_cons_of_mem _ hr)
    simp only [fieldsList]
    cases cs.docs with
    | nil => exact ih hrest
    | cons d ds =>
      cases hemp : (ord d).isEmpty with
      | true => simp only [hemp, if_true]; exact ih hrest
      | false =>
        simp only [hemp, Bool.false_eq_true, if_false, lookupKey, hne, ite_false]
        exact ih hrest

/-- The map entry of a listed collection, assuming unique collection
    names: present with the first document's enumerated keys, absent when
    the collection is empty (or the enumeration is empty). -/
theorem lookupKey_fieldsList_of_mem (ord : MapOrder) (name : String) (cs : CollState) :
    ∀ l : List (String × CollState), (l.map Prod.fst).Nodup → (name, cs) ∈ l →
      lookupKey name (fieldsList ord l) =
        (match cs.docs with
         | [] => none
         | d :: _ => if (ord d).isEmpty then none else some (ord d)) := by
  intro l
  induction l with
  | nil => intro _ hm; exact absurd hm (List.not_mem_nil _)
  | cons p rest ih =>
    intro hnd hm
    obtain ⟨n, c⟩ := p
    have hnd' := List.nodup_cons.mp hnd
    rcases List.mem_cons.mp hm with he | hm'
    · injection he with h1 h2
      subst h1; subst h2
      simp only [fieldsList]
      cases hd : cs.docs with
      | nil => exact lookupKey_fieldsList_of_notMem ord name rest hnd'.1
      | cons d ds =>
        cases hemp : (ord d).isEmpty with
        | true =>
          simp only [hemp, if_true]
          exact lookupKey_fieldsList_of_notMem ord name rest hnd'.1
        | false =>
          simp only [hemp, Bool.false_eq_true, if_false, lookupKey, ite_true]
    · have hmm : name ∈ rest.map Prod.fst := List.mem_map_of_mem Prod.fst hm'
      have hne : n ≠ name := fun he2 => (he2 ▸ hnd'.1) hmm
      simp only [fieldsList]
      cases c.docs with
      | nil => exact ih hnd'.2 hm'
      | cons d ds =>
        cases hemp : (ord d).isEmpty with
        | true => simp only [hemp, if_true]; exact ih hnd'.2 hm'
        | false =>
          simp only [hemp, Bool.false_eq_true, if_false, lookupKey, hne, ite_false]
          exact ih hnd'.2 hm'

/- Claim theorems. -/

/-- Claim C1: for every Get-by-ID handler and every path-parameter string
    that is not a valid 24-hex-character identifier, the handler answers
    status 400 with body "Invalid ID format" and issues no database
    operation at all (empty trace: the database is never reached). -/
theorem getByID_invalid_C1 (ord : MapOrder) (db : Db) (id : String)
    (h : valid24Hex id = false) :
    getCustomerByID ord db id = ({ status := 400, body := "Invalid ID format" }, []) ∧
    getProductByID ord db id = ({ status := 400, body := "Invalid ID format" }, []) ∧
    getOrderByID ord db id = ({ status := 400, body := "Invalid ID format" }, []) := by
  have hp : objectIDFromHex id = none := by
    unfold objectIDFromHex
    simp [h]
  refine ⟨?_, ?_, ?_⟩ <;> simp [getCustomerByID, getProductByID, getOrderByID, hp]

/-- Witness for C1 at the concrete path parameter "not-an-id". -/
theorem getByID_invalid_C1_witness :
    getCustomerByID ord0 db0 "not-an-id" = ({ status := 400, body := "Invalid ID format" }, []) ∧
    getProductByID ord0 db0 "not-an-id" = ({ status := 400, body := "Invalid ID format" }, []) ∧
    getOrderByID ord0 db0 "not-an-id" = ({ status := 400, body := "Invalid ID format" }, []) :=
  getByID_invalid_C1 ord0 db0 "not-an-id" (by decide)

/-- Claim C4: for every Get-by-ID handler and every valid identifier that
    matches no document of the respective collection (and no database
    failure), the handler answers 404 with the collection-specific
    message. -/
theorem getByID_notFound_C4 (ord : MapOrder) (db : Db) (id : String) (oid : List Nat)
    (hp : objectIDFromHex id = some oid)
    (hfree : db.errorFree = true)
    (hc : ∀ d ∈ (db.getColl "customers").docs, matchesId oid d = false)
    (hpr : ∀ d ∈ (db.getColl "products").docs, matchesId oid d = false)
    (ho : ∀ d ∈ (db.getColl "orders").docs, matchesId oid d = false) :
    getCustomerByID ord db id =
      ({ status := 404, body := "Customer not found" }, [.findOne "customers" oid]) ∧
    getProductByID ord db id =
      ({ status := 404, body := "Product not found" }, [.findOne "products" oid]) ∧
    getOrderByID ord db id =
      ({ status := 404, body := "Order not found" }, [.findOne "orders" oid]) := by
  have h1 := (getColl_errorFree db hfree "customers").2.2
  have h2 := (getColl_errorFree db hfree "products").2.2
  have h3 := (getColl_errorFree db hfree "orders").2.2
  have f1 : (db.getColl "customers").docs.find? (matchesId oid) = none :=
    List.find?_eq_none.mpr (fun d hd => by simp [hc d hd])
  have f2 : (db.getColl "products").docs.find? (matchesId oid) = none :=
    List.find?_eq_none.mpr (fun d hd => by simp [hpr d hd])
  have f3 : (db.getColl "orders").docs.find? (matchesId oid) = none :=
    List.find?_eq_none.mpr (fun d hd => by simp [ho d hd])
  refine ⟨?_, ?_, ?_⟩ <;>
    simp [getCustomerByID, getProductByID, getOrderByID, hp, h1, h2, h3, f1, f2, f3]

/-- Witness for C4: a valid identifier against empty collections. -/
theorem getByID_notFound_C4_witness :
    getCustomerByID ord0 db0 "507f1f77bcf86cd799439011" =
      ({ status := 404, body := "Customer not found" }, [.findOne "customers" oid24]) ∧
    getProductByID ord0 db0 "507f1f77bcf86cd799439011" =
      ({ status := 404, body := "Product not found" }, [.findOne "products" oid24]) ∧
    getOrderByID ord0 db0 "507f1f77bcf86cd799439011" =
      ({ status := 404, body := "Order not found" }, [.findOne "orders" oid24]) :=
  getByID_notFound_C4 ord0 db0 "507f1f77bcf86cd799439011" oid24 (by decide) (by decide)
    (fun d hd => absurd hd (List.not_mem_nil d))
    (fun d hd => absurd hd (List.not_mem_nil d))
    (fun d hd => absurd hd (List.not_mem_nil d))

/-- Claim C6: for every Get-by-ID handler, when the lookup of a validly
    parsed identifier fails with a database error other than not-found,
    the handler answers 500 with the entity-specific prefix followed by
    the raw error text. -/
theorem getByID_dbError_C6 (ord : MapOrder) (db : Db) (id : String) (oid : List Nat)
    (e1 e2 e3 : String)
    (hp : objectIDFromHex id = some oid)
    (h1 : (db.getColl "customers").findOneErr = some e1)
    (h2 : (db.getColl "products").findOneErr = some e2)
    (h3 : (db.getColl "orders").findOneErr = some e3) :
    getCustomerByID ord db id =
      ({ status := 500, body := "Error finding customer: " ++ e1 }, [.findOne "customers" oid]) ∧
    getProductByID ord db id =
      ({ status := 500, body := "Error finding product: " ++ e2 }, [.findOne "products" oid]) ∧
    getOrderByID ord db id =
      ({ status := 500, body := "Error finding order: " ++ e3 }, [.findOne "orders" oid]) := by
  refine ⟨?_, ?_, ?_⟩ <;>
    simp [getCustomerByID, getProductByID, getOrderByID, hp, h1, h2, h3]

/-- Witness for C6: a valid identifier against collections whose `FindOne`
    fails with "socket timeout". -/
theorem getByID_dbError_C6_witness :
    getCustomerByID ord0 dbErrs "507f1f77bcf86cd799439011" =
      ({ status := 500, body := "Error finding customer: socket timeout" },
        [.findOne "customers" oid24]) ∧
    getProductByID ord0 dbErrs "507f1f77bcf86cd799439011" =
      ({ status := 500, body := "Error finding product: socket timeout" },
        [.findOne "products" oid24]) ∧
    getOrderByID ord0 dbErrs "507f1f77bcf86cd799439011" =
      ({ status := 500, body := "Error finding order: socket timeout" },
        [.findOne "orders" oid24]) :=
  getByID_dbError_C6 ord0 dbErrs "507f1f77bcf86cd799439011" oid24
    "socket timeout" "socket timeout" "socket timeout"
    (by decide) (by decide) (by decide) (by decide)

/-- Claim C10: the three Get-by-ID handlers compute the same function up
    to parameterization: each equals the generic `getByIDFrom` applied to
    its collection name and entity wording, at every input. -/
theorem getByID_generic_C10 (ord : MapOrder) (db : Db) (id : String) :
    getCustomerByID ord db id = getByIDFrom "customers" "customer" "Customer not found" ord db id ∧
    getProductByID ord db id = getByIDFrom "products" "product" "Product not found" ord db id ∧
    getOrderByID ord db id = getByIDFrom "orders" "order" "Order not found" ord db id := by
  refine ⟨?_, ?_, ?_⟩ <;> rfl

/-- Counterexample to C2 as stated: on an error-free database whose
    `orders` collection exists with zero documents, GET /api/orders
    answers 200 whose body is "null" — the nil Go slice left untouched by
    `cursor.All` marshals as null, not as the empty JSON array. -/
theorem getAll_empty_C2_counterexample :
    dbW.errorFree = true ∧
    (dbW.getColl "orders").docs = [] ∧
    (getAllOrders ord0 dbW).1.status = 200 ∧
    (getAllOrders ord0 dbW).1.body = "null" ∧
    (getAllOrders ord0 dbW).1.body ≠ "[]" :=
  ⟨by decide, rfl, rfl, rfl, by decide⟩

/-- Claim C2 as amended: on an error-free database each list handler
    answers 200; with at least one document the body is the JSON array of
    all documents of the fixed collection, with zero documents the body is
    "null" (not an empty array). -/
theorem getAll_success_C2 (ord : MapOrder) (db : Db) (hfree : db.errorFree = true) :
    ((getAllCustomers ord db).1.status = 200 ∧
      ((db.getColl "customers").docs = [] → (getAllCustomers ord db).1.body = "null") ∧
      (∀ d l, (db.getColl "customers").docs = d :: l →
        (getAllCustomers ord db).1.body = "[" ++ commaJoin ((d :: l).map jsonOfDoc) ++ "]")) ∧
    ((getAllProducts ord db).1.status = 200 ∧
      ((db.getColl "products").docs = [] → (getAllProducts ord db).1.body = "null") ∧
      (∀ d l, (db.getColl "products").docs = d :: l →
        (getAllProducts ord db).1.body = "[" ++ commaJoin ((d :: l).map jsonOfDoc) ++ "]")) ∧
    ((getAllOrders ord db).1.status = 200 ∧
      ((db.getColl "orders").docs = [] → (getAllOrders ord db).1.body = "null") ∧
      (∀ d l, (db.getColl "orders").docs = d :: l →
        (getAllOrders ord db).1.body = "[" ++ commaJoin ((d :: l).map jsonOfDoc) ++ "]")) := by
  obtain ⟨hf1, hi1, _⟩ := getColl_errorFree db hfree "customers"
  obtain ⟨hf2, hi2, _⟩ := getColl_errorFree db hfree "products"
  obtain ⟨hf3, hi3, _⟩ := getColl_errorFree db hfree "orders"
  have c1 : (getAllCustomers ord db).1 =
      { status := 200, body := goDocSliceJson (db.getColl "customers").docs } := by
    simp only [getAllCustomers, hf1, hi1]
  have c2 : (getAllProducts ord db).1 =
      { status := 200, body := goDocSliceJson (db.getColl "products").docs } := by
    simp only [getAllProducts, hf2, hi2]
  have c3 : (getAllOrders ord db).1 =
      { status := 200, body := goDocSliceJson (db.getColl "orders").docs } := by
    simp only [getAllOrders, hf3, hi3]
  refine ⟨⟨by rw [c1], fun h => by rw [c1]; simp [goDocSliceJson, h],
           fun d l h => by rw [c1]; simp only [h]; rfl⟩,
          ⟨by rw [c2], fun h => by rw [c2]; simp [goDocSliceJson, h],
           fun d l h => by rw [c2]; simp only [h]; rfl⟩,
          ⟨by rw [c3], fun h => by rw [c3]; simp [goDocSliceJson, h],
           fun d l h => by rw [c3]; simp only [h]; rfl⟩⟩

/-- Witness for the amended C2: one customer, empty orders. -/
theorem getAll_success_C2_witness :
    (getAllCustomers ord0 dbW).1.status = 200 ∧
    (getAllOrders ord0 dbW).1.body = "null" ∧
    (getAllCustomers ord0 dbW).1.body =
      "[\x7b\"_id\":\"507f1f77bcf86cd799439011\",\"name\":\"Alice\"\x7d]" := by
  have h := getAll_success_C2 ord0 dbW (by decide)
  refine ⟨h.1.1, h.2.2.2.1 rfl, (h.1.2.2 dAlice [] rfl).trans (by decide)⟩

/-- Counterexample to C5 as stated: `listFields` ranges over the Go map of
    the decoded document, and Go's map iteration order is unspecified and
    varies between executions.  Two legitimate enumeration orders of the
    same unchanged database (both permutations of the document's keys)
    yield different bodies for GET /api/fields, so repeated GETs are not
    byte-identical. -/
theorem listFields_order_C5_counterexample :
    List.Perm (ord0 dAlice) (docKeys dAlice) ∧
    List.Perm (ordRev dAlice) (docKeys dAlice) ∧
    (listFields ord0 dbW).1.status = 200 ∧
    (listFields ordRev dbW).1.status = 200 ∧
    (listFields ord0 dbW).1.body ≠ (listFields ordRev dbW).1.body := by decide

/-- Claim C5 as amended: every GET endpoint other than /api/fields is
    insensitive to the map-iteration schedule, hence two executions of the
    same request against the same unchanged database produce byte-identical
    bodies; /api/fields may reorder the field-name arrays between
    executions. -/
theorem handlers_deterministic_C5 (ord ord' : MapOrder) (db : Db) (id : String) :
    getAllCustomers ord db = getAllCustomers ord' db ∧
    getAllProducts ord db = getAllProducts ord' db ∧
    getAllOrders ord db = getAllOrders ord' db ∧
    getCustomerByID ord db id = getCustomerByID ord' db id ∧
    getProductByID ord db id = getProductByID ord' db id ∧
    getOrderByID ord db id = getOrderByID ord' db id :=
  ⟨rfl, rfl, rfl, rfl, rfl, rfl⟩

/-- Claim C7 fails on the code: when the cursor of a collection fails
    while being iterated, `Cursor.Next` returns false and the code never
    consults `Cursor.Err`, so `listFields` silently treats the collection
    as empty and completes with 200 instead of aborting with 500.  The
    same injected failure is surfaced as a 500 by `getAllOrders`, whose
    `cursor.All` does check the iteration error. -/
theorem listFields_swallows_cursor_error_C7 :
    dbC7.errorFree = false ∧
    (getAllOrders ord0 dbC7).1 = { status := 500, body := "connection reset by peer" } ∧
    (listFields ord0 dbC7).1 = { status := 200, body := "\x7b\x7d" } ∧
    (listFields ord0 dbC7).1.status ≠ 500 := by decide

/-- Claim C9: when the configuration file cannot be read or the database
    URL is empty, startup terminates fatally with a nonzero exit status,
    the HTTP port is never bound, and no handler ever runs (serving is
    never reached). -/
theorem startup_fatal_C9 (e : StartEnv)
    (h : e.envFileOk = false ∨ e.mongoUrl = "") :
    (startup e).exitCode ≠ 0 ∧
    (startup e).portBound = false ∧
    ∃ m, startup e = .fatal 1 m := by
  have hout : ∃ m, startup e = .fatal 1 m := by
    unfold startup
    rcases h with h | h <;> cases hz : e.zapOk <;> cases hf : e.envFileOk <;> simp_all
  obtain ⟨m, hm⟩ := hout
  rw [hm]
  exact ⟨by simp [StartResult.exitCode], rfl, ⟨m, rfl⟩⟩

/-- Witness for C9: the configuration file is unreadable. -/
theorem startup_fatal_C9_witness :
    (startup env0).exitCode ≠ 0 ∧
    (startup env0).portBound = false ∧
    ∃ m, startup env0 = .fatal 1 m :=
  startup_fatal_C9 env0 (Or.inl rfl)

/-- A read operation leaves the database unchanged. -/
theorem applyOp_read (db : Db) (op : DbOp) (h : op.isRead = true) : applyOp db op = db := by
  cases op with
  | listCollectionNames => rfl
  | find c => rfl
  | findOne c i => rfl
  | insertOne c d => exact absurd h (by simp [DbOp.isRead])
  | deleteOne c i => exact absurd h (by simp [DbOp.isRead])

/-- A trace of read operations leaves the database unchanged. -/
theorem stateAfter_reads :
    ∀ (ops : List DbOp) (db : Db), (∀ op ∈ ops, op.isRead = true) → stateAfter db ops = db := by
  intro ops
  induction ops with
  | nil => intro db _; rfl
  | cons op rest ih =>
    intro db h
    have h1 := applyOp_read db op (h op (List.mem_cons_self _ _))
    have h2 : stateAfter (applyOp db op) rest = applyOp db op :=
      ih (applyOp db op) (fun o ho => h o (List.mem_cons_of_mem _ ho))
    calc stateAfter db (op :: rest) = stateAfter (applyOp db op) rest := rfl
    _ = applyOp db op := h2
    _ = db := h1

/-- The loop of `listFields` issues only `Find` operations. -/
theorem scanOps_reads : ∀ l : List (String × CollState), ∀ op ∈ scanOps l, op.isRead = true := by
  intro l
  induction l with
  | nil => intro op h; exact absurd h (List.not_mem_nil op)
  | cons p rest ih =>
    intro op h
    obtain ⟨name, cs⟩ := p
    simp only [scanOps] at h
    cases hcs : cs.findErr with
    | some e =>
      rw [hcs] at h
      have := List.mem_singleton.mp h
      subst this; rfl
    | none =>
      rw [hcs] at h
      rcases List.mem_cons.mp h with he | hm
      · subst he; rfl
      · exact ih op hm

/-- `listFields` issues only read operations. -/
theorem listFields_trace_reads (ord : MapOrder) (db : Db) :
    ∀ op ∈ (listFields ord db).2, op.isRead = true := by
  unfold listFields
  cases db.listNamesErr with
  | some e =>
    intro op hop
    have := List.mem_singleton.mp hop
    subst this; rfl
  | none =>
    cases scanFields ord db.colls with
    | error e =>
      intro op hop
      rcases List.mem_cons.mp hop with he | hm
      · subst he; rfl
      · exact scanOps_reads db.colls op hm
    | ok fields =>
      intro op hop
      rcases List.mem_cons.mp hop with he | hm
      · subst he; rfl
      · exact scanOps_reads db.colls op hm

/-- Each list handler issues exactly one `Find` on its fixed collection. -/
theorem getAll_traces (ord : MapOrder) (db : Db) :
    (getAllCustomers ord db).2 = [.find "customers"] ∧
    (getAllProducts ord db).2 = [.find "products"] ∧
    (getAllOrders ord db).2 = [.find "orders"] := by
  refine ⟨?_, ?_, ?_⟩
  · simp only [getAllCustomers]
    cases (db.getColl "customers").findErr with
    | some e => rfl
    | none => cases (db.getColl "customers").iterErr with
      | some e => rfl
      | none => rfl
  · simp only [getAllProducts]
    cases (db.getColl "products").findErr with
    | some e => rfl
    | none => cases (db.getColl "products").iterErr with
      | some e => rfl
      | none => rfl
  · simp only [getAllOrders]
    cases (db.getColl "orders").findErr with
    | some e => rfl
    | none => cases (db.getColl "orders").iterErr with
      | some e => rfl
      | none => rfl

/-- Each concrete Get-by-ID handler is the generic one at its
    parameters. -/
theorem byID_eq_generic (ord : MapOrder) (db : Db) (id : String) :
    getCustomerByID ord db id = getByIDFrom "customers" "customer" "Customer not found" ord db id ∧
    getProductByID ord db id = getByIDFrom "products" "product" "Product not found" ord db id ∧
    getOrderByID ord db id = getByIDFrom "orders" "order" "Order not found" ord db id :=
  ⟨rfl, rfl, rfl⟩

/-- The generic Get-by-ID handler's trace is empty or one `FindOne`. -/
theorem getByIDFrom_trace (c ent msg : String) (ord : MapOrder) (db : Db) (id : String) :
    (getByIDFrom c ent msg ord db id).2 = [] ∨
    ∃ oid, (getByIDFrom c ent msg ord db id).2 = [DbOp.findOne c oid] := by
  cases hp : objectIDFromHex id with
  | none => exact Or.inl (by simp [getByIDFrom, hp])
  | some oid =>
    refine Or.inr ⟨oid, ?_⟩
    cases hf : (db.getColl c).findOneErr with
    | some e => simp [getByIDFrom, hp, hf]
    | none =>
      cases hq : (db.getColl c).docs.find? (matchesId oid) with
      | none => simp [getByIDFrom, hp, hf, hq]
      | some d => simp [getByIDFrom, hp, hf, hq]

/-- Claim C8: every handler of the service leaves the database unchanged —
    interpreting each handler's operation trace over the database yields
    the database it started from (no insert, update or delete is ever
    issued). -/
theorem handlers_readonly_C8 (ord : MapOrder) (db : Db) (id : String) :
    stateAfter db (listFields ord db).2 = db ∧
    stateAfter db (getAllCustomers ord db).2 = db ∧
    stateAfter db (getAllProducts ord db).2 = db ∧
    stateAfter db (getAllOrders ord db).2 = db ∧
    stateAfter db (getCustomerByID ord db id).2 = db ∧
    stateAfter db (getProductByID ord db id).2 = db ∧
    stateAfter db (getOrderByID ord db id).2 = db := by
  obtain ⟨t1, t2, t3⟩ := getAll_traces ord db
  obtain ⟨g1, g2, g3⟩ := byID_eq_generic ord db id
  refine ⟨stateAfter_reads _ db (listFields_trace_reads ord db), ?_, ?_, ?_, ?_, ?_, ?_⟩
  · rw [t1]; rfl
  · rw [t2]; rfl
  · rw [t3]; rfl
  · rw [g1]
    rcases getByIDFrom_trace "customers" "customer" "Customer not found" ord db id with h | ⟨oid, h⟩ <;>
      rw [h] <;> rfl
  · rw [g2]
    rcases getByIDFrom_trace "products" "product" "Product not found" ord db id with h | ⟨oid, h⟩ <;>
      rw [h] <;> rfl
  · rw [g3]
    rcases getByIDFrom_trace "orders" "order" "Order not found" ord db id with h | ⟨oid, h⟩ <;>
      rw [h] <;> rfl

/-- Claim C3: on an error-free, well-formed database, `listFields` answers
    200 with the JSON of its `fields` map; every listed collection with at
    least one document is mapped to the enumerated top-level field names
    of its first-returned document (a permutation of that document's
    keys), and every listed collection with zero documents has no entry at
    all in the map. -/
theorem listFields_C3 (ord : MapOrder) (db : Db)
    (hfree : db.errorFree = true) (hwf : db.wf = true)
    (hord : ∀ d : Doc, List.Perm (ord d) (docKeys d)) :
    (listFields ord db).1.status = 200 ∧
    (listFields ord db).1.body = jsonFieldsMap (listFieldsMap ord db) ∧
    ∀ name cs, (name, cs) ∈ db.colls →
      (cs.docs = [] → lookupKey name (listFieldsMap ord db) = none) ∧
      (∀ d rest, cs.docs = d :: rest →
        lookupKey name (listFieldsMap ord db) = some (ord d) ∧
        List.Perm (ord d) (docKeys d)) := by
  obtain ⟨hln, hcolls⟩ := db_errorFree_spec db hfree
  obtain ⟨hnd, hdocs⟩ := db_wf_spec db hwf
  have hok : scanFields ord db.colls = .ok (fieldsList ord db.colls) :=
    scanFields_eq_ok ord db.colls (fun p hp => ⟨(hcolls p hp).1, (hcolls p hp).2.1⟩)
  have hmap : listFieldsMap ord db = fieldsList ord db.colls := by
    unfold listFieldsMap; rw [hok]
  have hresp : (listFields ord db).1 =
      { status := 200, body := jsonFieldsMap (fieldsList ord db.colls) } := by
    simp only [listFields, hln, hok]
  refine ⟨by rw [hresp], by rw [hresp, hmap], ?_⟩
  intro name cs hmem
  have hlk := lookupKey_fieldsList_of_mem ord name cs db.colls hnd hmem
  constructor
  · intro hnil
    rw [hmap, hlk, hnil]
  · intro d rest hcons
    have hperm := hord d
    have hwfd : docWF d = true :=
      hdocs ⟨name, cs⟩ hmem d (by rw [hcons]; exact List.mem_cons_self _ _)
    have hid : "_id" ∈ docKeys d := by
      unfold docWF at hwfd
      rw [Bool.and_eq_true] at hwfd
      exact mem_keys_of_getField d "_id" hwfd.1
    have hidm : "_id" ∈ ord d := hperm.mem_iff.mpr hid
    have hne : (ord d).isEmpty = false := by
      cases hords : ord d with
      | nil => rw [hords] at hidm; exact absurd hidm (List.not_mem_nil _)
      | cons a l => rfl
    refine ⟨?_, hperm⟩
    rw [hmap, hlk, hcons]
    simp [hne]

/-- Witness for C3: one customer document, one existing empty collection. -/
theorem listFields_C3_witness :
    (listFields ord0 dbW).1.status = 200 ∧
    lookupKey "customers" (listFieldsMap ord0 dbW) = some ["_id", "name"] ∧
    lookupKey "orders" (listFieldsMap ord0 dbW) = none := by
  have h := listFields_C3 ord0 dbW (by decide) (by decide)
    (fun d => List.Perm.refl (docKeys d))
  refine ⟨h.1, ?_, ?_⟩
  · have hc := ((h.2.2 "customers" { docs := [dAlice] }
      (List.mem_cons_self _ _)).2 dAlice [] rfl).1
    exact hc.trans (by decide)
  · exact (h.2.2 "orders" { docs := [] }
      (List.mem_cons_of_mem _ (List.mem_cons_self _ _))).1 rfl

end MongoGo
